import Mathlib

/-!
Shallow embedding of `src/index.ts` of the `server-accepts-email` service.

The file under verification is a small email-verification orchestrator:

* `getMailServers` resolves the MX records of a domain (through a
  process-wide concurrency limiter of size 256), treating the resolver
  error codes `ENOTFOUND` and `ENODATA` as an empty record list, sorts
  the records ascending by priority and keeps only the exchange names;
* `testServer` probes one server through a client session, honouring a
  single greylisting deferral (sleep, then retry once with greylist
  handling disabled);
* `serverAcceptsEmail` extracts the domain after the first `@` of the
  address, resolves the server list, returns `false` when it is empty,
  computes the effective sender identity (JS `||` defaulting), and tries
  the servers in order, returning the first verdict and otherwise
  rethrowing the last attempt error.

The external collaborators `Client` and `Manager` (files `client.ts` and
`manager.ts`, not part of the sources given) are modelled at the
interface the orchestrator uses, following the spec's collaborator
contracts: `Manager.withClient` either fails (session acquisition) or
runs the body with a live client whose result/error is forwarded, and
`Client.test` returns a tagged probe outcome or throws.  Repeated calls
to `Client.test` on one session may answer differently (that is the
point of greylisting), so a client is modelled as a function of the
recipient address, the sender address and a call index.

JavaScript strings are modelled as Lean `String`s, JS `Error` values as
a `code?`/`message` record, a thrown value as the `Except` error
channel (the JS code can `throw lastError` when it is `null`, hence the
`Option` in the top-level error type), and the timed sleep as an
instrumented count of milliseconds slept.  The host loop is instrumented
with the list of servers for which a client session was requested, so
that "host X was never contacted" is expressible.
-/

/-- Model of a JavaScript `Error` value as thrown by the resolver, the
client or the orchestrator: an optional `code` (the DNS errors carry
one, e.g. `ENOTFOUND`) and a message. -/
structure JsError where
  code : Option String
  message : String
deriving DecidableEq, Repr

/-- Model of one `dns.MxRecord`: `{ priority, exchange }`. -/
structure MxRecord where
  priority : Nat
  exchange : String
deriving DecidableEq, Repr

/-- Model of `handleResolveMxErrors` (src/index.ts lines 28-31): the
`p-catch-if` wrapper turns a resolver error whose code is `ENOTFOUND` or
`ENODATA` into an empty record list and rethrows every other error. -/
def handleResolveMxErrors (e : JsError) : Except JsError (List MxRecord) :=
  if e.code = some "ENOTFOUND" ∨ e.code = some "ENODATA" then .ok []
  else .error e

/-- Boolean comparison used to model the JS sort comparator
`(lhs, rhs) => lhs.priority - rhs.priority`: `lhs` sorts no later than
`rhs` exactly when its priority is smaller or equal.  JS `Array.sort`
is specified to be stable, which `List.mergeSort` also is. -/
def mxLe (lhs rhs : MxRecord) : Bool :=
  decide (lhs.priority ≤ rhs.priority)

/-- Model of `getMailServers` (src/index.ts lines 33-41): resolve the MX
records of `hostname` (an `Option` because the JS caller can pass
`undefined`), apply `handleResolveMxErrors` to a rejection, sort the
records ascending by priority (stably) and keep the exchange names. -/
def getMailServers (resolveMx : Option String → Except JsError (List MxRecord))
    (hostname : Option String) : Except JsError (List String) :=
  let resolved : Except JsError (List MxRecord) :=
    match resolveMx hostname with
    | .ok records => .ok records
    | .error e => handleResolveMxErrors e
  match resolved with
  | .error e => .error e
  | .ok mxRecords => .ok ((mxRecords.mergeSort mxLe).map (·.exchange))

/-- Tagged outcome of one `client.test` call: either a definitive
answer (`result.answer`) or a greylisting deferral carrying the retry
timeout in seconds (`result.kind === 'greylist'`, `result.timeout`). -/
inductive ProbeResult where
  | answer (accepted : Bool)
  | greylist (timeout : Nat)
deriving DecidableEq, Repr

/-- Behaviour of one client session: `client.test(email, { senderAddress })`
either throws or returns a probe outcome.  The extra `Nat` argument is
the call index on this session, so that a retried probe can answer
differently from the first one. -/
def ClientFun : Type :=
  String → String → Nat → Except JsError ProbeResult

/-- The error thrown by `testServer` when the server greylists after the
single allowed deferral was already spent: `new Error('Server applied greylisting')`. -/
def greylistingError : JsError :=
  ⟨none, "Server applied greylisting"⟩

/-- Model of `testServer` (src/index.ts lines 47-63).  Returns the
result of the attempt together with the total milliseconds slept
(`pSleep(result.timeout * 1000)`).  A greylist outcome with handling
enabled sleeps and re-invokes the same policy on the same session with
`handleGraylisting: false`; with handling disabled it throws. -/
def testServer (client : ClientFun) (email senderAddress : String)
    (handleGraylisting : Bool) (callIdx : Nat) : Except JsError Bool × Nat :=
  match client email senderAddress callIdx with
  | .error e => (.error e, 0)
  | .ok (.answer accepted) => (.ok accepted, 0)
  | .ok (.greylist timeout) =>
    match handleGraylisting with
    | false => (.error greylistingError, 0)
    | true =>
      let retry := testServer client email senderAddress false (callIdx + 1)
      (retry.1, timeout * 1000 + retry.2)
termination_by handleGraylisting.toNat
decreasing_by decide

/-- The environment of one `serverAcceptsEmail` call: the DNS resolver,
the local host name (`os.hostname()`), and the session provider
(`globalManager.withClient`), which for a server and sender domain
either fails to acquire a session or yields a client. -/
structure Env where
  resolveMx : Option String → Except JsError (List MxRecord)
  osHostname : String
  withClient : String → String → Except JsError ClientFun

/-- Caller options of `serverAcceptsEmail`. -/
structure VerifyOptions where
  senderDomain : Option String := none
  senderAddress : Option String := none
deriving DecidableEq, Repr

/-- JS `supplied || fallback` for an optional string: `undefined` and
the empty string are falsy, every other string is returned unchanged. -/
def jsOr (supplied : Option String) (fallback : String) : String :=
  match supplied with
  | none => fallback
  | some s => if s = "" then fallback else s

/-- Effective sender domain (src/index.ts line 73):
`options.senderDomain || os.hostname()`. -/
def effectiveSenderDomain (env : Env) (options : VerifyOptions) : String :=
  jsOr options.senderDomain env.osHostname

/-- Effective sender address (src/index.ts line 74):
`options.senderAddress || `test@${senderDomain}``, where `senderDomain`
is the effective one. -/
def effectiveSenderAddress (env : Env) (options : VerifyOptions) : String :=
  jsOr options.senderAddress ("test@" ++ effectiveSenderDomain env options)

/-- Model of JS `String.prototype.split` with a one-character
separator, on the character list of the string: `"" ↦ [""]`,
`"a@b@c" ↦ ["a","b","c"]`, `"@" ↦ ["",""]`. -/
def splitOnChar (sep : Char) : List Char → List (List Char)
  | [] => [[]]
  | c :: rest =>
    let segs := splitOnChar sep rest
    if c = sep then [] :: segs
    else
      match segs with
      | [] => [[c]]
      | seg :: more => (c :: seg) :: more

/-- Model of `email.split('@')[1]` (src/index.ts line 66): the segment
after the first `@`, or `none` (JS `undefined`) when the address has no
`@` at all. -/
def extractHostname (email : String) : Option String :=
  ((splitOnChar '@' email.data).map (fun cs => String.mk cs))[1]?

/-- One host attempt (src/index.ts lines 79-81): acquire a client for
`(server, senderDomain)` from the manager; on success run `testServer`
with greylist handling enabled; forward the result or error. -/
def attemptServer (env : Env) (email senderDomain senderAddress server : String) :
    Except JsError Bool :=
  match env.withClient server senderDomain with
  | .error e => .error e
  | .ok client => (testServer client email senderAddress true 0).1

/-- The host fallback loop (src/index.ts lines 76-88): try the servers
in order; the first attempt that returns a verdict ends the loop with
it; an attempt error is recorded as the last error and the next server
is tried; when the list is exhausted the last error is thrown (`none`
models JS `throw null`, only possible on an empty list).  The second
component is the list of servers that were attempted, in order. -/
def serverLoop (attempt : String → Except JsError Bool) :
    List String → Option JsError → Except (Option JsError) Bool × List String
  | [], lastError => (.error lastError, [])
  | server :: rest, _ =>
    match attempt server with
    | .ok verdict => (.ok verdict, [server])
    | .error e =>
      let next := serverLoop attempt rest (some e)
      (next.1, server :: next.2)

/-- Model of `serverAcceptsEmail` (src/index.ts lines 65-89),
instrumented with the list of servers contacted.  The limiter call
`getMailServersLimit(getMailServers, hostname)` forwards `getMailServers`'
result unchanged (the limiter only schedules the call), so its
sequential denotation is `getMailServers` itself; the limiter's
concurrency behaviour is modelled separately below. -/
def serverAcceptsEmailT (env : Env) (email : String) (options : VerifyOptions) :
    Except (Option JsError) Bool × List String :=
  let hostname := extractHostname email
  match getMailServers env.resolveMx hostname with
  | .error e => (.error (some e), [])
  | .ok servers =>
    if servers.length = 0 then (.ok false, [])
    else
      serverLoop
        (attemptServer env email (effectiveSenderDomain env options)
          (effectiveSenderAddress env options))
        servers none

/-- The value `serverAcceptsEmail` resolves or rejects with. -/
def serverAcceptsEmail (env : Env) (email : String) (options : VerifyOptions) :
    Except (Option JsError) Bool :=
  (serverAcceptsEmailT env email options).1

/-- The servers `serverAcceptsEmail` requests a client session for, in
order. -/
def contactedServers (env : Env) (email : String) (options : VerifyOptions) :
    List String :=
  (serverAcceptsEmailT env email options).2

/-! ### Model of the resolution throttle

`src/index.ts` line 26 creates `getMailServersLimit = pLimit(256)` and
line 67 routes every `getMailServers` call through it.  `p-limit` is an
external package; following the spec's contract (§4.2) it is modelled
as a FIFO counting semaphore: a submitted job starts at once when fewer
than `n` jobs are active and queues otherwise; when a job completes, the
head of the queue (if any) is started.  Jobs are identified by numbers;
`submitted` and `started` record submission and admission order. -/

/-- Modelled from the spec: the concurrency bound of the
`getMailServersLimit` throttle, `pLimit(256)`. -/
def getMailServersLimitBound : Nat := 256

/-- Modelled from the spec: the state of the `p-limit` throttle (the
package itself is not among the sources): number of running jobs,
queued job ids in arrival order, and the history of admissions and
submissions. -/
structure LimitState where
  active : Nat
  queue : List Nat
  started : List Nat
  submitted : List Nat
deriving DecidableEq, Repr

/-- The throttle before any job is submitted. -/
def limitInit : LimitState :=
  ⟨0, [], [], []⟩

/-- Modelled from the spec: submitting a job to a `pLimit(n)` throttle:
it starts immediately when capacity is free and queues otherwise. -/
def limitSubmit (n : Nat) (s : LimitState) (id : Nat) : LimitState :=
  if s.active < n then
    { s with active := s.active + 1, started := s.started ++ [id],
             submitted := s.submitted ++ [id] }
  else
    { s with queue := s.queue ++ [id], submitted := s.submitted ++ [id] }

/-- Modelled from the spec: a running job completes; the head of the
queue (if any) is admitted in its place. -/
def limitComplete (s : LimitState) : LimitState :=
  match s.queue with
  | [] => { s with active := s.active - 1 }
  | id :: rest => { s with queue := rest, started := s.started ++ [id] }

/-- States the throttle can reach from `limitInit`: any interleaving of
submissions and completions (a completion needs a running job). -/
inductive LimitReachable (n : Nat) : LimitState → Prop where
  | init : LimitReachable n limitInit
  | submit {s : LimitState} {id : Nat} :
      LimitReachable n s → LimitReachable n (limitSubmit n s id)
  | complete {s : LimitState} :
      LimitReachable n s → 0 < s.active → LimitReachable n (limitComplete s)

/-! ### Helper lemmas -/

/-- An attempt with greylist handling disabled never sleeps: either the
probe throws, or it answers, or the greylisting error is thrown at once. -/
theorem testServer_false_sleep (client : ClientFun) (email senderAddress : String)
    (callIdx : Nat) :
    (testServer client email senderAddress false callIdx).2 = 0 := by
  rw [testServer]
  rcases client email senderAddress callIdx with e | r
  · rfl
  · rcases r with b | t <;> rfl

/-- The fallback loop returns the first verdict: when every server of
`pre` fails and `server` yields verdict `b`, the loop over
`pre ++ server :: suf` returns `b` and attempts exactly `pre ++ [server]`. -/
theorem serverLoop_first_ok (attempt : String → Except JsError Bool)
    (pre : List String) (suf : List String) (server : String) (b : Bool)
    (hpre : ∀ s ∈ pre, ∃ e, attempt s = .error e)
    (hhit : attempt server = .ok b) :
    ∀ lastError, serverLoop attempt (pre ++ server :: suf) lastError =
      (.ok b, pre ++ [server]) := by
  induction pre with
  | nil =>
    intro lastError
    simp [serverLoop, hhit]
  | cons s rest ih =>
    intro lastError
    obtain ⟨e, he⟩ := hpre s (by simp)
    have ih' := ih (fun x hx => hpre x (by simp [hx])) (some e)
    simp [serverLoop, he, ih']

/-- When every server fails, the loop attempts all of them and throws
the error of the last one. -/
theorem serverLoop_all_fail (attempt : String → Except JsError Bool)
    (servers : List String) (lastServer : String) (e : JsError)
    (hfail : ∀ s ∈ servers, ∃ e', attempt s = .error e')
    (hlast : attempt lastServer = .error e) :
    ∀ lastError, serverLoop attempt (servers ++ [lastServer]) lastError =
      (.error (some e), servers ++ [lastServer]) := by
  induction servers with
  | nil =>
    intro lastError
    simp [serverLoop, hlast]
  | cons s rest ih =>
    intro lastError
    obtain ⟨e', he'⟩ := hfail s (by simp)
    have ih' := ih (fun x hx => hfail x (by simp [hx])) (some e')
    simp [serverLoop, he', ih']

/-- A separator-free character list is split into a single segment. -/
theorem splitOnChar_not_mem (sep : Char) (cs : List Char) (h : sep ∉ cs) :
    splitOnChar sep cs = [cs] := by
  induction cs with
  | nil => rfl
  | cons c rest ih =>
    have hc : ¬c = sep := by
      intro hc
      exact h (by simp [hc])
    have ih' := ih (fun hm => h (by simp [hm]))
    simp [splitOnChar, hc, ih']

/-- An address without `@` yields no hostname (JS `undefined`). -/
theorem extractHostname_no_at (email : String) (h : '@' ∉ email.data) :
    extractHostname email = none := by
  unfold extractHostname
  rw [splitOnChar_not_mem '@' email.data h]
  rfl

/-- Invariant of the throttle: never more than `n` jobs active, the
queue is empty whenever capacity is free, and the admitted jobs
followed by the queued jobs are exactly the submitted jobs in
submission order. -/
theorem limitReachable_invariant {n : Nat} {s : LimitState}
    (h : LimitReachable n s) :
    s.active ≤ n ∧ (s.active < n → s.queue = []) ∧
    s.started ++ s.queue = s.submitted := by
  induction h with
  | init => simp [limitInit]
  | @submit s id h ih =>
    obtain ⟨h1, h2, h3⟩ := ih
    unfold limitSubmit
    by_cases hc : s.active < n
    · have hq : s.queue = [] := h2 hc
      simp only [if_pos hc]
      refine ⟨by omega, fun _ => hq, ?_⟩
      rw [← h3, hq]
      simp
    · simp only [if_neg hc]
      refine ⟨h1, fun hlt => absurd hlt hc, ?_⟩
      rw [← h3]
      simp
  | @complete s h hpos ih =>
    obtain ⟨h1, h2, h3⟩ := ih
    unfold limitComplete
    cases hq : s.queue with
    | nil =>
      rw [hq] at h3
      refine ⟨?_, fun _ => rfl, ?_⟩
      · show s.active - 1 ≤ n
        omega
      · show s.started ++ ([] : List Nat) = s.submitted
        exact h3
    | cons id rest =>
      have hfull : ¬s.active < n := by
        intro hlt
        rw [h2 hlt] at hq
        exact List.noConfusion hq
      refine ⟨?_, ?_, ?_⟩
      · show s.active ≤ n
        exact h1
      · show s.active < n → rest = []
        intro hlt
        exact absurd hlt hfull
      · show s.started ++ [id] ++ rest = s.submitted
        rw [← h3, hq]
        simp

/-- Stability of the model sort: a filter keeping only mutually
`mxLe`-comparable records (e.g. all of one priority) is unchanged by
sorting. -/
theorem mergeSort_mxLe_filter_stable (records : List MxRecord) (P : MxRecord → Bool)
    (hP : ∀ a b, P a = true → P b = true → mxLe a b = true) :
    (records.mergeSort mxLe).filter P = records.filter P := by
  have trans : ∀ a b c : MxRecord, mxLe a b → mxLe b c → mxLe a c := by
    intro a b c
    simp only [mxLe, decide_eq_true_eq]
    omega
  have total : ∀ a b : MxRecord, mxLe a b || mxLe b a := by
    intro a b
    simp only [mxLe, Bool.or_eq_true, decide_eq_true_eq]
    omega
  have hpair : (records.filter P).Pairwise (fun a b => mxLe a b = true) :=
    List.pairwise_of_forall_mem_list fun a ha b hb =>
      hP a b (List.of_mem_filter ha) (List.of_mem_filter hb)
  have hsub : List.Sublist (records.filter P) (records.mergeSort mxLe) :=
    List.sublist_mergeSort trans total hpair (List.filter_sublist records)
  have hsub2 : List.Sublist (records.filter P) ((records.mergeSort mxLe).filter P) := by
    have h2 := hsub.filter P
    simpa using h2
  have hperm : ((records.mergeSort mxLe).filter P).Perm (records.filter P) :=
    (records.mergeSort_perm mxLe).filter P
  exact (hsub2.eq_of_length hperm.length_eq.symm).symm

/-! ### Concrete environments used by the witnesses -/

/-- A client whose probe always reports acceptance. -/
def clientAccepts : ClientFun := fun _ _ _ => .ok (.answer true)

/-- A connection-refused style attempt error. -/
def refusedError : JsError := ⟨none, "connect ECONNREFUSED"⟩

/-- A resolver-infrastructure error that is not ENOTFOUND/ENODATA. -/
def servfailError : JsError := ⟨some "ESERVFAIL", "queryMx ESERVFAIL"⟩

/-- Environment: `example.com` has two exchangers; the preferred one
refuses sessions, the second one accepts the probe. -/
def envA : Env where
  resolveMx := fun h =>
    if h = some "example.com" then
      .ok [⟨10, "mx1.example.com"⟩, ⟨20, "mx2.example.com"⟩]
    else .error ⟨some "ENOTFOUND", "queryMx ENOTFOUND"⟩
  osHostname := "verifier.local"
  withClient := fun server _ =>
    if server = "mx1.example.com" then .error refusedError
    else .ok clientAccepts

/-- Claim C1: hosts are attempted strictly in the resolver's order, and
the first host whose attempt yields a verdict determines the result of
`serverAcceptsEmail` immediately; no later host is contacted; only an
attempt error causes the next host to be tried. -/
theorem serverAcceptsEmail_first_verdict_short_circuits
    (env : Env) (email : String) (options : VerifyOptions)
    (pre suf : List String) (server : String) (b : Bool)
    (hservers : getMailServers env.resolveMx (extractHostname email) =
      .ok (pre ++ server :: suf))
    (hpre : ∀ s ∈ pre, ∃ e, attemptServer env email
      (effectiveSenderDomain env options) (effectiveSenderAddress env options) s =
      .error e)
    (hhit : attemptServer env email (effectiveSenderDomain env options)
      (effectiveSenderAddress env options) server = .ok b) :
    serverAcceptsEmail env email options = .ok b ∧
    contactedServers env email options = pre ++ [server] := by
  have hloop := serverLoop_first_ok
    (attemptServer env email (effectiveSenderDomain env options)
      (effectiveSenderAddress env options)) pre suf server b hpre hhit none
  have hne : ¬(pre ++ server :: suf).length = 0 := by simp
  unfold serverAcceptsEmail contactedServers serverAcceptsEmailT
  simp only [hservers]
  rw [if_neg hne, hloop]
  exact ⟨rfl, rfl⟩

unseal List.merge List.mergeSort testServer in
/-- Witness for C1: with `envA`, the refused first exchanger is skipped,
the second exchanger's verdict `true` is returned, and exactly the two
exchangers were contacted in priority order. -/
theorem serverAcceptsEmail_first_verdict_short_circuits_witness :
    serverAcceptsEmail envA "user@example.com" {} = .ok true ∧
    contactedServers envA "user@example.com" {} =
      ["mx1.example.com", "mx2.example.com"] :=
  serverAcceptsEmail_first_verdict_short_circuits envA "user@example.com" {}
    ["mx1.example.com"] [] "mx2.example.com" true
    rfl
    (by
      intro s hs
      rw [List.mem_singleton] at hs
      subst hs
      exact ⟨refusedError, rfl⟩)
    rfl

/-- Claim C2: a greylist outcome with handling enabled suspends for
`retryAfterSeconds` seconds (`timeout * 1000` milliseconds) and then
re-invokes the same attempt on the same session with greylist handling
disabled, returning whatever that second invocation produces. -/
theorem testServer_greylist_sleeps_and_retries_once
    (client : ClientFun) (email senderAddress : String) (callIdx timeout : Nat)
    (h : client email senderAddress callIdx = .ok (.greylist timeout)) :
    testServer client email senderAddress true callIdx =
      ((testServer client email senderAddress false (callIdx + 1)).1,
       timeout * 1000) := by
  have hs := testServer_false_sleep client email senderAddress (callIdx + 1)
  rw [testServer, h]
  simp [hs]

/-- A client that greylists on the first probe and accepts on the
retry. -/
def clientGreylistsOnce : ClientFun := fun _ _ i =>
  if i = 0 then .ok (.greylist 5) else .ok (.answer true)

unseal testServer in
/-- Witness for C2: the greylisting client makes the attempt sleep
5000 ms and return the retry's verdict. -/
theorem testServer_greylist_sleeps_and_retries_once_witness :
    testServer clientGreylistsOnce "a@example.com" "test@verifier.local" true 0 =
      ((testServer clientGreylistsOnce "a@example.com" "test@verifier.local"
          false 1).1, 5000) :=
  testServer_greylist_sleeps_and_retries_once clientGreylistsOnce
    "a@example.com" "test@verifier.local" 0 5 rfl

/-- Claim C3: a greylist outcome with handling disabled fails at once
with the "Server applied greylisting" error and sleeps no further, so a
host attempt honours at most one deferral; moreover a full attempt
(handling enabled) is decided by at most its first two probe calls, so
its recursion depth is bounded by 2 and it always terminates. -/
theorem testServer_second_greylist_fails_depth_two
    (client : ClientFun) (email senderAddress : String) (callIdx timeout : Nat)
    (h : client email senderAddress callIdx = .ok (.greylist timeout)) :
    testServer client email senderAddress false callIdx =
      (.error greylistingError, 0) ∧
    ∀ client2 : ClientFun,
      client2 email senderAddress callIdx = client email senderAddress callIdx →
      client2 email senderAddress (callIdx + 1) =
        client email senderAddress (callIdx + 1) →
      testServer client2 email senderAddress true callIdx =
        testServer client email senderAddress true callIdx := by
  constructor
  · rw [testServer, h]
  · intro client2 h0 h1
    have hfalse : testServer client2 email senderAddress false (callIdx + 1) =
        testServer client email senderAddress false (callIdx + 1) := by
      rw [testServer, h1]
      conv_rhs => rw [testServer]
    rw [testServer, h0]
    conv_rhs => rw [testServer]
    cases hres : client email senderAddress callIdx with
    | error e => rfl
    | ok r =>
      cases r with
      | answer b => rfl
      | greylist t =>
        simp only [hfalse]

/-- A client that greylists on every probe. -/
def clientGreylistsTwice : ClientFun := fun _ _ _ => .ok (.greylist 7)

/-- A client that greylists on the first two probes and then rejects:
it agrees with `clientGreylistsTwice` on probe calls 0 and 1. -/
def clientGreylistsTwiceAlt : ClientFun := fun _ _ i =>
  if i ≤ 1 then .ok (.greylist 7) else .ok (.answer false)

unseal testServer in
/-- Witness for C3: an always-greylisting client makes the
handling-disabled attempt fail immediately with the greylisting error,
and the handling-enabled attempt only looks at the first two probes. -/
theorem testServer_second_greylist_fails_depth_two_witness :
    testServer clientGreylistsTwice "a@example.com" "test@verifier.local"
      false 0 = (.error greylistingError, 0) ∧
    testServer clientGreylistsTwiceAlt "a@example.com" "test@verifier.local"
      true 0 =
    testServer clientGreylistsTwice "a@example.com" "test@verifier.local"
      true 0 := by
  have h := testServer_second_greylist_fails_depth_two clientGreylistsTwice
    "a@example.com" "test@verifier.local" 0 7 rfl
  exact ⟨h.1, h.2 clientGreylistsTwiceAlt rfl rfl⟩

/-- Claim C4: when every host's attempt fails, each failure replaces the
recorded last error, and `serverAcceptsEmail` rejects with exactly the
final host's error, after attempting all hosts in order. -/
theorem serverAcceptsEmail_all_fail_surfaces_last_error
    (env : Env) (email : String) (options : VerifyOptions)
    (initServers : List String) (lastServer : String) (e : JsError)
    (hservers : getMailServers env.resolveMx (extractHostname email) =
      .ok (initServers ++ [lastServer]))
    (hfail : ∀ s ∈ initServers, ∃ e', attemptServer env email
      (effectiveSenderDomain env options) (effectiveSenderAddress env options) s =
      .error e')
    (hlast : attemptServer env email (effectiveSenderDomain env options)
      (effectiveSenderAddress env options) lastServer = .error e) :
    serverAcceptsEmail env email options = .error (some e) ∧
    contactedServers env email options = initServers ++ [lastServer] := by
  have hloop := serverLoop_all_fail
    (attemptServer env email (effectiveSenderDomain env options)
      (effectiveSenderAddress env options)) initServers lastServer e hfail hlast
    none
  have hne : ¬(initServers ++ [lastServer]).length = 0 := by simp
  unfold serverAcceptsEmail contactedServers serverAcceptsEmailT
  simp only [hservers]
  rw [if_neg hne, hloop]
  exact ⟨rfl, rfl⟩

/-- The error of the first failing exchanger of `envD`. -/
def errorE1 : JsError := ⟨none, "E1"⟩

/-- The error of the second failing exchanger of `envD`. -/
def errorE2 : JsError := ⟨none, "E2"⟩

/-- Environment: `example.org` has two exchangers and both attempts
fail, with distinct errors. -/
def envD : Env where
  resolveMx := fun h =>
    if h = some "example.org" then
      .ok [⟨10, "mxa.example.org"⟩, ⟨20, "mxb.example.org"⟩]
    else .error ⟨some "ENOTFOUND", "queryMx ENOTFOUND"⟩
  osHostname := "verifier.local"
  withClient := fun server _ =>
    if server = "mxa.example.org" then .error errorE1 else .error errorE2

unseal List.merge List.mergeSort testServer in
/-- Witness for C4: both hosts of `envD` fail with E1 then E2; the call
rejects with E2 (not E1, not an aggregate) after contacting both. -/
theorem serverAcceptsEmail_all_fail_surfaces_last_error_witness :
    serverAcceptsEmail envD "user@example.org" {} = .error (some errorE2) ∧
    contactedServers envD "user@example.org" {} =
      ["mxa.example.org", "mxb.example.org"] :=
  serverAcceptsEmail_all_fail_surfaces_last_error envD "user@example.org" {}
    ["mxa.example.org"] "mxb.example.org" errorE2
    rfl
    (by
      intro s hs
      rw [List.mem_singleton] at hs
      subst hs
      exact ⟨errorE1, rfl⟩)
    rfl

/-- Claim C5: a domain with zero mail exchangers (an empty resolver
answer, or a "domain not found"/"no data" resolver error) makes
`serverAcceptsEmail` return `false` without throwing, and no host is
contacted. -/
theorem serverAcceptsEmail_no_exchangers_returns_false
    (env : Env) (email : String) (options : VerifyOptions)
    (h : env.resolveMx (extractHostname email) = .ok [] ∨
      ∃ e : JsError, env.resolveMx (extractHostname email) = .error e ∧
        (e.code = some "ENOTFOUND" ∨ e.code = some "ENODATA")) :
    serverAcceptsEmail env email options = .ok false ∧
    contactedServers env email options = [] := by
  have hservers : getMailServers env.resolveMx (extractHostname email) = .ok [] := by
    rcases h with h | ⟨e, he, hcode⟩
    · unfold getMailServers
      simp [h]
    · have hhandle : handleResolveMxErrors e = .ok [] := by
        unfold handleResolveMxErrors
        rw [if_pos hcode]
      unfold getMailServers
      simp [he, hhandle]
  unfold serverAcceptsEmail contactedServers serverAcceptsEmailT
  simp [hservers]

/-- Environment: the resolver reports ENODATA for every domain. -/
def envE : Env where
  resolveMx := fun _ => .error ⟨some "ENODATA", "queryMx ENODATA"⟩
  osHostname := "verifier.local"
  withClient := fun _ _ => .ok clientAccepts

/-- Witness for C5: an ENODATA domain verifies to `false` with no error
and no contacted host. -/
theorem serverAcceptsEmail_no_exchangers_returns_false_witness :
    serverAcceptsEmail envE "user@nomail.example" {} = .ok false ∧
    contactedServers envE "user@nomail.example" {} = [] :=
  serverAcceptsEmail_no_exchangers_returns_false envE "user@nomail.example" {}
    (Or.inr ⟨⟨some "ENODATA", "queryMx ENODATA"⟩, rfl, Or.inr rfl⟩)

/-- Claim C6: `handleResolveMxErrors` maps exactly the codes ENOTFOUND
and ENODATA to an empty exchanger list; every other resolver error
propagates out of `getMailServers` and hence out of
`serverAcceptsEmail` (it occurs before any host list exists). -/
theorem getMailServers_error_code_mapping (e : JsError) :
    (handleResolveMxErrors e = .ok [] ↔
      e.code = some "ENOTFOUND" ∨ e.code = some "ENODATA") ∧
    (¬(e.code = some "ENOTFOUND" ∨ e.code = some "ENODATA") →
      handleResolveMxErrors e = .error e) ∧
    (∀ (resolveMx : Option String → Except JsError (List MxRecord))
       (hostname : Option String),
      resolveMx hostname = .error e →
      ¬(e.code = some "ENOTFOUND" ∨ e.code = some "ENODATA") →
      getMailServers resolveMx hostname = .error e) ∧
    (∀ (env : Env) (email : String) (options : VerifyOptions),
      env.resolveMx (extractHostname email) = .error e →
      ¬(e.code = some "ENOTFOUND" ∨ e.code = some "ENODATA") →
      serverAcceptsEmail env email options = .error (some e) ∧
      contactedServers env email options = []) := by
  have herr : ∀ hn : ¬(e.code = some "ENOTFOUND" ∨ e.code = some "ENODATA"),
      handleResolveMxErrors e = .error e := by
    intro hn
    unfold handleResolveMxErrors
    rw [if_neg hn]
  have hgms : ∀ (resolveMx : Option String → Except JsError (List MxRecord))
      (hostname : Option String),
      resolveMx hostname = .error e →
      ¬(e.code = some "ENOTFOUND" ∨ e.code = some "ENODATA") →
      getMailServers resolveMx hostname = .error e := by
    intro resolveMx hostname hres hn
    unfold getMailServers
    simp [hres, herr hn]
  refine ⟨?_, herr, hgms, ?_⟩
  · unfold handleResolveMxErrors
    split <;> simp_all
  · intro env email options hres hn
    have := hgms env.resolveMx (extractHostname email) hres hn
    unfold serverAcceptsEmail contactedServers serverAcceptsEmailT
    simp [this]

/-- Environment: the resolver fails with ESERVFAIL for every domain. -/
def envF : Env where
  resolveMx := fun _ => .error servfailError
  osHostname := "verifier.local"
  withClient := fun _ _ => .ok clientAccepts

/-- Witness for C6: an ESERVFAIL resolver error is not swallowed: it is
rethrown by `getMailServers` and surfaces from `serverAcceptsEmail`. -/
theorem getMailServers_error_code_mapping_witness :
    handleResolveMxErrors servfailError = .error servfailError ∧
    serverAcceptsEmail envF "user@down.example" {} = .error (some servfailError) := by
  have h := getMailServers_error_code_mapping servfailError
  have hn : ¬(servfailError.code = some "ENOTFOUND" ∨
      servfailError.code = some "ENODATA") := by
    simp [servfailError]
  exact ⟨h.2.1 hn, (h.2.2.2 envF "user@down.example" {} rfl hn).1⟩

/-- Claim C7: `getMailServers` returns exactly the resolved records'
hostnames sorted ascending by priority, stably for equal priorities,
with the priority values discarded. -/
theorem getMailServers_sorted_stable_hostnames
    (resolveMx : Option String → Except JsError (List MxRecord))
    (hostname : Option String) (records : List MxRecord)
    (h : resolveMx hostname = .ok records) :
    ∃ sortedRecords : List MxRecord,
      getMailServers resolveMx hostname = .ok (sortedRecords.map (·.exchange)) ∧
      sortedRecords.Perm records ∧
      sortedRecords.Pairwise (fun a b => a.priority ≤ b.priority) ∧
      ∀ p : Nat, sortedRecords.filter (fun r => r.priority == p) =
        records.filter (fun r => r.priority == p) := by
  refine ⟨records.mergeSort mxLe, ?_, ?_, ?_, ?_⟩
  · unfold getMailServers
    simp [h]
  · exact records.mergeSort_perm mxLe
  · have trans : ∀ a b c : MxRecord, mxLe a b → mxLe b c → mxLe a c := by
      intro a b c
      simp only [mxLe, decide_eq_true_eq]
      omega
    have total : ∀ a b : MxRecord, mxLe a b || mxLe b a := by
      intro a b
      simp only [mxLe, Bool.or_eq_true, decide_eq_true_eq]
      omega
    have hp := List.sorted_mergeSort trans total records
    exact hp.imp (by
      intro a b hab
      simpa [mxLe] using hab)
  · intro p
    refine mergeSort_mxLe_filter_stable records (fun r => r.priority == p) ?_
    intro a b ha hb
    simp only [beq_iff_eq] at ha hb
    simp [mxLe, ha, hb]

/-- A resolver answering three records, two of them of equal priority,
in unsorted order. -/
def resolveMxG : Option String → Except JsError (List MxRecord) := fun _ =>
  .ok [⟨20, "low.example.com"⟩, ⟨10, "hi1.example.com"⟩, ⟨10, "hi2.example.com"⟩]

/-- Witness for C7: the three records of `resolveMxG` are returned
sorted by priority with the two priority-10 hosts kept in input order. -/
theorem getMailServers_sorted_stable_hostnames_witness :
    ∃ sortedRecords : List MxRecord,
      getMailServers resolveMxG (some "g.example") =
        .ok (sortedRecords.map (·.exchange)) ∧
      sortedRecords.Perm
        [⟨20, "low.example.com"⟩, ⟨10, "hi1.example.com"⟩,
         ⟨10, "hi2.example.com"⟩] ∧
      sortedRecords.Pairwise (fun a b => a.priority ≤ b.priority) ∧
      ∀ p : Nat, sortedRecords.filter (fun r => r.priority == p) =
        [⟨20, "low.example.com"⟩, ⟨10, "hi1.example.com"⟩,
         ⟨10, "hi2.example.com"⟩].filter (fun r => r.priority == p) :=
  getMailServers_sorted_stable_hostnames resolveMxG (some "g.example") _ rfl

/-- Environment with no mail servers anywhere, used for the sender
identity computations (which do not consult the network). -/
def envB : Env where
  resolveMx := fun _ => .ok []
  osHostname := "verifier.local"
  withClient := fun _ _ => .ok clientAccepts

/-- Counterexample to claim C8 as stated: a caller-supplied
`senderDomain` that is present but empty is not used unchanged — JS
`||` treats the empty string as falsy, so the local host name is used
instead. -/
theorem effectiveSenderDomain_empty_supplied_counterexample :
    effectiveSenderDomain envB ⟨some "", none⟩ = "verifier.local" ∧
    "verifier.local" ≠ "" :=
  ⟨rfl, by decide⟩

/-- Claim C8 (amended): with no sender options the identity is
defaulted from the local host name, with `senderAddress` derived from
the effective `senderDomain`; a non-empty caller-supplied value is used
unchanged; a supplied empty string is falsy in JS and treated as
absent. -/
theorem effectiveSender_defaulting (env : Env) (d a : String) :
    (effectiveSenderDomain env ⟨none, none⟩ = env.osHostname ∧
     effectiveSenderAddress env ⟨none, none⟩ = "test@" ++ env.osHostname) ∧
    (d ≠ "" → effectiveSenderDomain env ⟨some d, none⟩ = d ∧
      effectiveSenderAddress env ⟨some d, none⟩ = "test@" ++ d) ∧
    (a ≠ "" → effectiveSenderDomain env ⟨none, some a⟩ = env.osHostname ∧
      effectiveSenderAddress env ⟨none, some a⟩ = a) ∧
    (d ≠ "" → a ≠ "" → effectiveSenderDomain env ⟨some d, some a⟩ = d ∧
      effectiveSenderAddress env ⟨some d, some a⟩ = a) ∧
    effectiveSenderDomain env ⟨some "", none⟩ = env.osHostname := by
  refine ⟨⟨rfl, rfl⟩, ?_, ?_, ?_, ?_⟩
  · intro hd
    constructor <;> simp [effectiveSenderDomain, effectiveSenderAddress, jsOr, hd]
  · intro ha
    constructor <;> simp [effectiveSenderDomain, effectiveSenderAddress, jsOr, ha]
  · intro hd ha
    constructor <;> simp [effectiveSenderDomain, effectiveSenderAddress, jsOr, hd, ha]
  · simp [effectiveSenderDomain, jsOr]

/-- Witness for C8 (amended): concrete defaulting and pass-through of
the sender identity against `envB`. -/
theorem effectiveSender_defaulting_witness :
    (effectiveSenderDomain envB ⟨none, none⟩ = "verifier.local" ∧
     effectiveSenderAddress envB ⟨none, none⟩ = "test@" ++ "verifier.local") ∧
    (effectiveSenderDomain envB ⟨some "sender.example", none⟩ = "sender.example" ∧
     effectiveSenderAddress envB ⟨some "sender.example", none⟩ =
       "test@" ++ "sender.example") := by
  have h := effectiveSender_defaulting envB "sender.example" "boss@sender.example"
  exact ⟨h.1, h.2.1 (by decide)⟩

/-- Claim C9: in the throttle model every reachable state has at most
256 resolution operations in flight, and the jobs admitted so far are a
prefix of the jobs submitted so far (FIFO admission). -/
theorem resolutionThrottle_bound_and_fifo (s : LimitState)
    (h : LimitReachable getMailServersLimitBound s) :
    s.active ≤ 256 ∧ ∃ pending, s.started ++ pending = s.submitted := by
  obtain ⟨h1, _, h3⟩ := limitReachable_invariant h
  exact ⟨h1, s.queue, h3⟩

/-- Witness for C9: the invariant evaluated after one submission to the
idle throttle. -/
theorem resolutionThrottle_bound_and_fifo_witness :
    (limitSubmit getMailServersLimitBound limitInit 0).active ≤ 256 ∧
    ∃ pending,
      (limitSubmit getMailServersLimitBound limitInit 0).started ++ pending =
      (limitSubmit getMailServersLimitBound limitInit 0).submitted :=
  resolutionThrottle_bound_and_fifo _
    (LimitReachable.submit LimitReachable.init)

/-- Claim C10: the domain is the segment after the first `@`: for
`"a@b@c"` the segment `"b"` between the first and second `@` is what
gets resolved; an address without `@` passes an undefined domain to
the resolver, and the function performs no validation of its own — the
resolver's failure is what surfaces, not `false` or a dedicated
malformed-address error. -/
theorem extractHostname_between_first_ats_no_validation :
    extractHostname "a@b@c" = some "b" ∧
    (∀ email : String, '@' ∉ email.data → extractHostname email = none) ∧
    (∀ (env : Env) (options : VerifyOptions) (e : JsError),
      env.resolveMx (some "b") = .error e →
      ¬(e.code = some "ENOTFOUND" ∨ e.code = some "ENODATA") →
      serverAcceptsEmail env "a@b@c" options = .error (some e)) ∧
    (∀ (env : Env) (email : String) (options : VerifyOptions) (e : JsError),
      '@' ∉ email.data →
      env.resolveMx none = .error e →
      ¬(e.code = some "ENOTFOUND" ∨ e.code = some "ENODATA") →
      serverAcceptsEmail env email options = .error (some e)) := by
  have hgms : ∀ (env : Env) (hostname : Option String) (e : JsError),
      env.resolveMx hostname = .error e →
      ¬(e.code = some "ENOTFOUND" ∨ e.code = some "ENODATA") →
      getMailServers env.resolveMx hostname = .error e := by
    intro env hostname e hres hn
    have herr : handleResolveMxErrors e = .error e := by
      unfold handleResolveMxErrors
      rw [if_neg hn]
    unfold getMailServers
    simp [hres, herr]
  refine ⟨rfl, extractHostname_no_at, ?_, ?_⟩
  · intro env options e hres hn
    have h := hgms env (some "b") e hres hn
    unfold serverAcceptsEmail serverAcceptsEmailT
    have hext : extractHostname "a@b@c" = some "b" := rfl
    simp [hext, h]
  · intro env email options e hat hres hn
    have h := hgms env none e hres hn
    unfold serverAcceptsEmail serverAcceptsEmailT
    simp [extractHostname_no_at email hat, h]

/-- Environment whose resolver fails with ESERVFAIL exactly on the
undefined domain. -/
def envC : Env where
  resolveMx := fun h => if h = none then .error servfailError else .ok []
  osHostname := "verifier.local"
  withClient := fun _ _ => .ok clientAccepts

/-- Witness for C10: an address without `@` yields no hostname, and the
resolver's ESERVFAIL on the undefined domain surfaces unchanged. -/
theorem extractHostname_between_first_ats_no_validation_witness :
    extractHostname "plainaddress" = none ∧
    serverAcceptsEmail envC "plainaddress" {} = .error (some servfailError) := by
  have h := extractHostname_between_first_ats_no_validation
  exact ⟨h.2.1 "plainaddress" (by decide),
    h.2.2.2 envC "plainaddress" {} servfailError (by decide) rfl (by decide)⟩
